import Mathlib

/-!
Shallow embedding of the phone one-time-code authentication flow
(`src/lib/phone-auth.ts`): issuing a login code (purge of stale records,
sliding-window rate limit, resend cooldown, record creation) and verifying
a submitted code (normalization, newest-active selection, attempt cap,
constant-time hash comparison, consumption).

The Prisma store is modelled as a list of records; timestamps are integer
milliseconds; the HMAC primitive is an abstract function parameter; the
`PHONE_OTP_TTL_MINUTES` environment variable is modelled by its parse
result (`none` = unset, `some none` = non-finite, `some (some q)` = the
finite numeric value `q`).
-/

namespace PhoneAuth

/-- Mirrors the `HttpError` class from `src/lib/http.ts` (status + message). -/
structure HttpError where
  status : Nat
  message : String
deriving DecidableEq

/-- One row of the `PhoneLoginCode` table (see the migration in the repo:
id, phoneNumber, codeHash, expiresAt, attempts default 0, consumedAt
nullable, requestedByIp nullable, createdAt default now). -/
structure PhoneLoginCode where
  id : Nat
  phoneNumber : String
  codeHash : String
  expiresAt : Int
  attempts : Nat
  consumedAt : Option Int
  requestedByIp : Option String
  createdAt : Int
deriving DecidableEq

def OTP_CODE_LENGTH : Nat := 6
def MAX_VERIFY_ATTEMPTS : Nat := 5
def MAX_REQUESTS_PER_WINDOW : Nat := 5
def REQUEST_WINDOW_MINUTES : Int := 15
def RESEND_COOLDOWN_SECONDS : Int := 60

/-- `getOtpTtlMinutes`: `Number(process.env.PHONE_OTP_TTL_MINUTES ?? 5)`,
default 5 when the variable is unset (`none`) or non-finite (`some none`),
otherwise `Math.max(1, Math.min(15, Math.floor(parsed)))`. -/
def getOtpTtlMinutes (envTtl : Option (Option ℚ)) : Nat :=
  match envTtl with
  | none => 5
  | some none => 5
  | some (some parsed) => (max 1 (min 15 ⌊parsed⌋)).toNat

/-- `hashOtpCode`: HMAC of the message `phoneNumber + ":" + code` under the
server secret; the HMAC itself is an abstract parameter `hmac key message`. -/
def hashOtpCode (hmac : String → String → String) (secret phoneNumber code : String) : String :=
  hmac secret (phoneNumber ++ ":" ++ code)

/-- Value of a hex digit character, as in `Buffer.from(s, 'hex')`. -/
def hexDigitVal (c : Char) : Option Nat :=
  if '0' ≤ c ∧ c ≤ '9' then some (c.toNat - '0'.toNat)
  else if 'a' ≤ c ∧ c ≤ 'f' then some (c.toNat - 'a'.toNat + 10)
  else if 'A' ≤ c ∧ c ≤ 'F' then some (c.toNat - 'A'.toNat + 10)
  else none

/-- Hex decoding of a character list: consume pairs of hex digits,
truncating at the first invalid or incomplete pair (Node `Buffer.from`). -/
def hexDecodeAux : List Char → List Nat
  | hi :: lo :: rest =>
    match hexDigitVal hi, hexDigitVal lo with
    | some h, some l => (16 * h + l) :: hexDecodeAux rest
    | _, _ => []
  | _ => []

def hexDecode (s : String) : List Nat := hexDecodeAux s.data

/-- `secureEqualHex`: decode both hex strings, compare byte lengths, then
compare contents (`timingSafeEqual` is semantically byte equality). -/
def secureEqualHex (left right : String) : Bool :=
  let leftBuffer := hexDecode left
  let rightBuffer := hexDecode right
  if leftBuffer.length ≠ rightBuffer.length then false
  else leftBuffer == rightBuffer

/-- Code points matched by the JavaScript regex class `\s`. -/
def jsWhitespaceCodes : List Nat :=
  [0x9, 0xa, 0xb, 0xc, 0xd, 0x20, 0xa0, 0x1680,
   0x2000, 0x2001, 0x2002, 0x2003, 0x2004, 0x2005, 0x2006, 0x2007,
   0x2008, 0x2009, 0x200a, 0x2028, 0x2029, 0x202f, 0x205f, 0x3000, 0xfeff]

def jsIsWhitespace (c : Char) : Bool := jsWhitespaceCodes.contains c.toNat

/-- `input.replace(/\s+/g, '')`: drop every whitespace character. -/
def stripWhitespace (s : String) : String :=
  String.mk (s.data.filter (fun c => !jsIsWhitespace c))

/-- The regex `^\d{6}$`. -/
def isSixDigits (s : String) : Bool :=
  s.data.length == OTP_CODE_LENGTH && s.data.all Char.isDigit

/-- `normalizeOtpCode`: strip whitespace, require exactly six digits,
otherwise throw `HttpError(400, ...)`. -/
def normalizeOtpCode (input : String) : Except HttpError String :=
  let compact := stripWhitespace input
  if isSixDigits compact then Except.ok compact
  else Except.error ⟨400, "Codul trebuie sa aiba 6 cifre"⟩

/-- `String(randomInt(0, 10 ** 6)).padStart(6, '0')` where the random draw
is the parameter `rand`. -/
def padCode (rand : Nat) : String :=
  let s := Nat.repr rand
  String.mk (List.replicate (OTP_CODE_LENGTH - s.length) '0' ++ s.data)

/-- A record matching the issuer's `deleteMany` filter: expired, consumed,
or attempt-exhausted. -/
def isPurged (now : Int) (r : PhoneLoginCode) : Bool :=
  decide (r.expiresAt < now) || r.consumedAt.isSome || decide (MAX_VERIFY_ATTEMPTS ≤ r.attempts)

/-- Effect of the issuer's opportunistic `deleteMany`. -/
def purgeStore (now : Int) (store : List PhoneLoginCode) : List PhoneLoginCode :=
  store.filter (fun r => !isPurged now r)

/-- The issuer's `count` query: records for this phone number created at or
after `now - 15 minutes`. -/
def recentCount (now : Int) (phoneNumber : String) (store : List PhoneLoginCode) : Nat :=
  (store.filter (fun r =>
    r.phoneNumber == phoneNumber &&
    decide (now - REQUEST_WINDOW_MINUTES * 60 * 1000 ≤ r.createdAt))).length

/-- One step of `findFirst` with `orderBy: { createdAt: 'desc' }`: keep the
candidate with the larger `createdAt`. -/
def newerOf (p : PhoneLoginCode → Bool) (best : Option PhoneLoginCode)
    (r : PhoneLoginCode) : Option PhoneLoginCode :=
  if p r then
    match best with
    | none => some r
    | some b => if b.createdAt < r.createdAt then some r else some b
  else best

/-- `findFirst` with a row filter `p` and `orderBy: { createdAt: 'desc' }`. -/
def findNewest (p : PhoneLoginCode → Bool) (store : List PhoneLoginCode) :
    Option PhoneLoginCode :=
  store.foldl (newerOf p) none

/-- The issuer's resend-cooldown check: look up the newest record for the
phone number and, when it is younger than 60 seconds, report the remaining
wait in whole seconds. -/
def cooldownRemaining (now : Int) (phoneNumber : String)
    (store : List PhoneLoginCode) : Option Int :=
  match findNewest (fun r => r.phoneNumber == phoneNumber) store with
  | none => none
  | some latest =>
    let secondsSinceLast := Int.fdiv (now - latest.createdAt) 1000
    if secondsSinceLast < RESEND_COOLDOWN_SECONDS then
      some (RESEND_COOLDOWN_SECONDS - secondsSinceLast)
    else none

/-- The row written by the issuer's `create` call: the keyed hash of the
generated code, the expiry `now + ttl`, and the schema defaults
(`attempts = 0`, `consumedAt = null`, `createdAt = now`). -/
def newRecord (hmac : String → String → String) (secret : String)
    (envTtl : Option (Option ℚ)) (rand nextId : Nat) (now : Int)
    (phoneNumber : String) (requestedByIp : Option String) : PhoneLoginCode :=
  { id := nextId, phoneNumber := phoneNumber,
    codeHash := hashOtpCode hmac secret phoneNumber (padCode rand),
    expiresAt := now + (getOtpTtlMinutes envTtl : Int) * 60 * 1000,
    attempts := 0, consumedAt := none,
    requestedByIp := requestedByIp, createdAt := now }

/-- `issuePhoneLoginCode`. State passing is explicit: the result is the
post-call store paired with the returned value or thrown error. `rand` is
the value drawn by `randomInt(0, 10 ** 6)`, `nextId` the id assigned by the
database to a newly created row, `now` the call time in milliseconds. -/
def issuePhoneLoginCode (hmac : String → String → String) (secret : String)
    (envTtl : Option (Option ℚ)) (rand nextId : Nat) (now : Int)
    (phoneNumber : String) (requestedByIp : Option String)
    (store : List PhoneLoginCode) :
    List PhoneLoginCode × Except HttpError (String × Int) :=
  let store1 := purgeStore now store
  if MAX_REQUESTS_PER_WINDOW ≤ recentCount now phoneNumber store1 then
    (store1, Except.error ⟨429, "Prea multe coduri solicitate. Incearca din nou in cateva minute."⟩)
  else
    match cooldownRemaining now phoneNumber store1 with
    | some waitSeconds =>
      (store1, Except.error ⟨429, "Asteapta " ++ toString waitSeconds ++ "s inainte de o noua solicitare"⟩)
    | none =>
      (store1 ++ [newRecord hmac secret envTtl rand nextId now phoneNumber requestedByIp],
       Except.ok (padCode rand, now + (getOtpTtlMinutes envTtl : Int) * 60 * 1000))

/-- The verifier's row filter: same phone number, not consumed, not expired. -/
def isActiveFor (phoneNumber : String) (now : Int) (r : PhoneLoginCode) : Bool :=
  r.phoneNumber == phoneNumber && r.consumedAt == none && decide (now < r.expiresAt)

/-- The verifier's failure-branch `update`: increment `attempts` on the
selected row. -/
def bumpAttempts (targetId : Nat) (r : PhoneLoginCode) : PhoneLoginCode :=
  if r.id == targetId then { r with attempts := r.attempts + 1 } else r

/-- The verifier's success-branch `update`: set `consumedAt` and increment
`attempts` on the selected row. -/
def consumeAndBump (now : Int) (targetId : Nat) (r : PhoneLoginCode) : PhoneLoginCode :=
  if r.id == targetId then
    { r with consumedAt := some now, attempts := r.attempts + 1 }
  else r

/-- `verifyPhoneLoginCode`: normalize the submitted code, select the newest
active record, enforce the attempt cap, compare hashes, and update the row. -/
def verifyPhoneLoginCode (hmac : String → String → String) (secret : String)
    (now : Int) (phoneNumber code : String) (store : List PhoneLoginCode) :
    List PhoneLoginCode × Except HttpError Bool :=
  match normalizeOtpCode code with
  | Except.error e => (store, Except.error e)
  | Except.ok normalizedCode =>
    match findNewest (isActiveFor phoneNumber now) store with
    | none => (store, Except.ok false)
    | some activeCode =>
      if MAX_VERIFY_ATTEMPTS ≤ activeCode.attempts then (store, Except.ok false)
      else
        let expectedHash := hashOtpCode hmac secret phoneNumber normalizedCode
        if secureEqualHex activeCode.codeHash expectedHash then
          (store.map (consumeAndBump now activeCode.id), Except.ok true)
        else
          (store.map (bumpAttempts activeCode.id), Except.ok false)

/-- A concrete injective stand-in for the HMAC, used to evaluate the model
on closed inputs: hex-encode the bytes of `key ++ "|" ++ message`. -/
def byteToHex (n : Nat) : String :=
  String.mk [Nat.digitChar ((n / 16) % 16), Nat.digitChar (n % 16)]

def strToHex (s : String) : String :=
  String.join (s.data.map (fun c => byteToHex (c.toNat % 256)))

def hmacDemo (key msg : String) : String := strToHex (key ++ "|" ++ msg)

/-- One client-visible operation against the store, carrying its own call
time and (for issuance) random draw. -/
inductive Op where
  | issueOp (rand : Nat) (now : Int) (phoneNumber : String) (requestedByIp : Option String)
  | verifyOp (now : Int) (phoneNumber : String) (code : String)

/-- The store together with the next database id. -/
structure SysState where
  store : List PhoneLoginCode
  nextId : Nat

def initState : SysState := { store := [], nextId := 0 }

def runOp (hmac : String → String → String) (secret : String)
    (envTtl : Option (Option ℚ)) (s : SysState) : Op → SysState
  | Op.issueOp rand now phoneNumber ip =>
    { store := (issuePhoneLoginCode hmac secret envTtl rand s.nextId now phoneNumber ip s.store).1,
      nextId := s.nextId + 1 }
  | Op.verifyOp now phoneNumber code =>
    { store := (verifyPhoneLoginCode hmac secret now phoneNumber code s.store).1,
      nextId := s.nextId }

def runOps (hmac : String → String → String) (secret : String)
    (envTtl : Option (Option ℚ)) (ops : List Op) : SysState :=
  ops.foldl (runOp hmac secret envTtl) initState

/-! ### Concrete traces

Closed evaluations of the operations, used to exhibit behaviours of the
code on explicit inputs. `hmacDemo` instantiates the abstract HMAC. -/

/-- Replay trace: `randomInt` draws the same value 111111 on two issuances
60 s apart, producing two active records with identical code hashes. -/
def replayStore0 : List PhoneLoginCode :=
  (issuePhoneLoginCode hmacDemo "k" none 111111 0 0 "+40722222222" none []).1

def replayStore1 : List PhoneLoginCode :=
  (issuePhoneLoginCode hmacDemo "k" none 111111 1 60000 "+40722222222" none replayStore0).1

def replayVerify1 : List PhoneLoginCode × Except HttpError Bool :=
  verifyPhoneLoginCode hmacDemo "k" 61000 "+40722222222" "111111" replayStore1

def replayVerify2 : List PhoneLoginCode × Except HttpError Bool :=
  verifyPhoneLoginCode hmacDemo "k" 62000 "+40722222222" "111111" replayVerify1.1

/-- Duplicate-code trace for the newest-record question: same draws as the
replay trace, on a different phone number. -/
def dupStore0 : List PhoneLoginCode :=
  (issuePhoneLoginCode hmacDemo "k" none 222222 0 0 "+40733333333" none []).1

def dupStore1 : List PhoneLoginCode :=
  (issuePhoneLoginCode hmacDemo "k" none 222222 1 60000 "+40733333333" none dupStore0).1

def dupVerify : List PhoneLoginCode × Except HttpError Bool :=
  verifyPhoneLoginCode hmacDemo "k" 61000 "+40733333333" "222222" dupStore1

/-- Rate-limit trace: five issue-and-consume cycles, one per minute, then a
sixth issuance at minute five. -/
def ratePhone : String := "+40755555555"

def rateIssue1 : List PhoneLoginCode × Except HttpError (String × Int) :=
  issuePhoneLoginCode hmacDemo "k" none 0 0 0 ratePhone none []

def rateVerify1 : List PhoneLoginCode × Except HttpError Bool :=
  verifyPhoneLoginCode hmacDemo "k" 1000 ratePhone "000000" rateIssue1.1

def rateIssue2 : List PhoneLoginCode × Except HttpError (String × Int) :=
  issuePhoneLoginCode hmacDemo "k" none 1 1 60000 ratePhone none rateVerify1.1

def rateVerify2 : List PhoneLoginCode × Except HttpError Bool :=
  verifyPhoneLoginCode hmacDemo "k" 61000 ratePhone "000001" rateIssue2.1

def rateIssue3 : List PhoneLoginCode × Except HttpError (String × Int) :=
  issuePhoneLoginCode hmacDemo "k" none 2 2 120000 ratePhone none rateVerify2.1

def rateVerify3 : List PhoneLoginCode × Except HttpError Bool :=
  verifyPhoneLoginCode hmacDemo "k" 121000 ratePhone "000002" rateIssue3.1

def rateIssue4 : List PhoneLoginCode × Except HttpError (String × Int) :=
  issuePhoneLoginCode hmacDemo "k" none 3 3 180000 ratePhone none rateVerify3.1

def rateVerify4 : List PhoneLoginCode × Except HttpError Bool :=
  verifyPhoneLoginCode hmacDemo "k" 181000 ratePhone "000003" rateIssue4.1

def rateIssue5 : List PhoneLoginCode × Except HttpError (String × Int) :=
  issuePhoneLoginCode hmacDemo "k" none 4 4 240000 ratePhone none rateVerify4.1

def rateVerify5 : List PhoneLoginCode × Except HttpError Bool :=
  verifyPhoneLoginCode hmacDemo "k" 241000 ratePhone "000004" rateIssue5.1

def rateIssue6 : List PhoneLoginCode × Except HttpError (String × Int) :=
  issuePhoneLoginCode hmacDemo "k" none 5 5 300000 ratePhone none rateVerify5.1

/-- Cooldown trace: issue, verify successfully 10 s later, issue again
20 s after the first issuance. -/
def coolIssue1 : List PhoneLoginCode × Except HttpError (String × Int) :=
  issuePhoneLoginCode hmacDemo "k" none 7 0 0 "+40744444444" none []

def coolVerify : List PhoneLoginCode × Except HttpError Bool :=
  verifyPhoneLoginCode hmacDemo "k" 10000 "+40744444444" "000007" coolIssue1.1

def coolIssue2 : List PhoneLoginCode × Except HttpError (String × Int) :=
  issuePhoneLoginCode hmacDemo "k" none 8 1 20000 "+40744444444" none coolVerify.1

/-- A record whose attempt counter has reached the cap, with the code hash
of the (correct) code "123456". -/
def exhaustedRecord : PhoneLoginCode :=
  { id := 0, phoneNumber := "+40711111111",
    codeHash := hashOtpCode hmacDemo "k" "+40711111111" "123456",
    expiresAt := 300000, attempts := 5, consumedAt := none,
    requestedByIp := none, createdAt := 0 }

/-- An active record with two prior failed attempts, hash of code "654321". -/
def sampleActiveRecord : PhoneLoginCode :=
  { id := 0, phoneNumber := "+40766666666",
    codeHash := hashOtpCode hmacDemo "k" "+40766666666" "654321",
    expiresAt := 300000, attempts := 2, consumedAt := none,
    requestedByIp := none, createdAt := 0 }

/-- A record consumed at 5 s, hash of code "111111". -/
def consumedRecord : PhoneLoginCode :=
  { id := 0, phoneNumber := "+40788888888",
    codeHash := hashOtpCode hmacDemo "k" "+40788888888" "111111",
    expiresAt := 300000, attempts := 1, consumedAt := some 5000,
    requestedByIp := none, createdAt := 0 }

/-- An active pending record for "+40799999999" created at time `t`. -/
def activeRecordAt (i : Nat) (t : Int) : PhoneLoginCode :=
  { id := i, phoneNumber := "+40799999999", codeHash := "aa",
    expiresAt := t + 300000, attempts := 0, consumedAt := none,
    requestedByIp := none, createdAt := t }

/-- Five pending records created one per minute. -/
def busyStore : List PhoneLoginCode :=
  [activeRecordAt 0 0, activeRecordAt 1 60000, activeRecordAt 2 120000,
   activeRecordAt 3 180000, activeRecordAt 4 240000]

/-- Older of two simultaneously active records for one phone number. -/
def olderActive : PhoneLoginCode :=
  { id := 0, phoneNumber := "+40712341234",
    codeHash := hashOtpCode hmacDemo "k" "+40712341234" "101010",
    expiresAt := 300000, attempts := 0, consumedAt := none,
    requestedByIp := none, createdAt := 0 }

/-- Newer of two simultaneously active records for one phone number. -/
def newerActive : PhoneLoginCode :=
  { id := 1, phoneNumber := "+40712341234",
    codeHash := hashOtpCode hmacDemo "k" "+40712341234" "202020",
    expiresAt := 360000, attempts := 0, consumedAt := none,
    requestedByIp := none, createdAt := 60000 }

/-- Invariant maintained by every operation: attempt counters are capped,
ids are below the id counter, and ids are pairwise distinct. -/
def GoodState (s : SysState) : Prop :=
  (∀ r ∈ s.store, r.attempts ≤ MAX_VERIFY_ATTEMPTS ∧ r.id < s.nextId) ∧
  (s.store.map (fun r => r.id)).Nodup

/-! ### Helper lemmas about the embedded operations -/

theorem foldl_newerOf_mem (p : PhoneLoginCode → Bool) :
    ∀ (l : List PhoneLoginCode) (init : Option PhoneLoginCode) (r : PhoneLoginCode),
      l.foldl (newerOf p) init = some r → init = some r ∨ (r ∈ l ∧ p r = true) := by
  intro l
  induction l with
  | nil => intro init r h; exact Or.inl h
  | cons x xs ih =>
    intro init r h
    rw [List.foldl_cons] at h
    rcases ih (newerOf p init x) r h with h1 | h1
    · by_cases hp : p x = true
      · cases init with
        | none =>
          have h2 : (if p x then some x else none) = some r := h1
          rw [if_pos hp] at h2
          injection h2 with h3
          subst h3
          exact Or.inr ⟨List.mem_cons_self x xs, hp⟩
        | some b =>
          have h2 : (if p x then (if b.createdAt < x.createdAt then some x else some b)
              else some b) = some r := h1
          rw [if_pos hp] at h2
          by_cases hc : b.createdAt < x.createdAt
          · rw [if_pos hc] at h2
            injection h2 with h3
            subst h3
            exact Or.inr ⟨List.mem_cons_self x xs, hp⟩
          · rw [if_neg hc] at h2
            exact Or.inl h2
      · have h2 : newerOf p init x = init := by
          unfold newerOf; rw [if_neg hp]
        rw [h2] at h1
        exact Or.inl h1
    · exact Or.inr ⟨List.mem_cons_of_mem x h1.1, h1.2⟩

theorem findNewest_mem {p : PhoneLoginCode → Bool} {l : List PhoneLoginCode}
    {r : PhoneLoginCode} (h : findNewest p l = some r) : r ∈ l ∧ p r = true := by
  rcases foldl_newerOf_mem p l none r h with h1 | h1
  · exact absurd h1 (by simp)
  · exact h1

theorem foldl_newerOf_of_none (p : PhoneLoginCode → Bool) :
    ∀ (l : List PhoneLoginCode), (∀ r ∈ l, p r = false) →
      ∀ init, l.foldl (newerOf p) init = init := by
  intro l
  induction l with
  | nil => intro _ init; rfl
  | cons x xs ih =>
    intro h init
    have hx : p x = false := h x (List.mem_cons_self x xs)
    have : newerOf p init x = init := by unfold newerOf; rw [hx]; simp
    rw [List.foldl_cons, this]
    exact ih (fun r hr => h r (List.mem_cons_of_mem x hr)) init

theorem findNewest_eq_none {p : PhoneLoginCode → Bool} {l : List PhoneLoginCode}
    (h : ∀ r ∈ l, p r = false) : findNewest p l = none :=
  foldl_newerOf_of_none p l h none

theorem foldl_newerOf_keep (p : PhoneLoginCode → Bool) (a : PhoneLoginCode) :
    ∀ (l : List PhoneLoginCode),
      (∀ r ∈ l, p r = true → r = a ∨ r.createdAt < a.createdAt) →
      l.foldl (newerOf p) (some a) = some a := by
  intro l
  induction l with
  | nil => intro _; rfl
  | cons x xs ih =>
    intro h
    have hstep : newerOf p (some a) x = some a := by
      show (if p x then (if a.createdAt < x.createdAt then some x else some a)
          else some a) = some a
      by_cases hp : p x = true
      · rw [if_pos hp]
        rcases h x (List.mem_cons_self x xs) hp with he | hlt
        · subst he; simp
        · rw [if_neg (Int.not_lt.mpr (Int.le_of_lt hlt))]
      · rw [if_neg hp]
    rw [List.foldl_cons, hstep]
    exact ih (fun r hr => h r (List.mem_cons_of_mem x hr))

theorem foldl_newerOf_max (p : PhoneLoginCode → Bool) (a : PhoneLoginCode) :
    ∀ (l : List PhoneLoginCode) (init : Option PhoneLoginCode),
      a ∈ l → p a = true →
      (∀ r ∈ l, p r = true → r = a ∨ r.createdAt < a.createdAt) →
      (init = none ∨ ∃ b, init = some b ∧ b.createdAt < a.createdAt) →
      l.foldl (newerOf p) init = some a := by
  intro l
  induction l with
  | nil => intro init hmem; exact absurd hmem (List.not_mem_nil a)
  | cons x xs ih =>
    intro init hmem hpa hmax hinit
    by_cases hxa : x = a
    · subst hxa
      have hstep : newerOf p init x = some x := by
        rcases hinit with h0 | ⟨b, hb, hblt⟩
        · subst h0
          show (if p x then some x else none) = some x
          rw [if_pos hpa]
        · subst hb
          show (if p x then (if b.createdAt < x.createdAt then some x else some b)
              else some b) = some x
          rw [if_pos hpa, if_pos hblt]
      rw [List.foldl_cons, hstep]
      exact foldl_newerOf_keep p x xs (fun r hr => hmax r (List.mem_cons_of_mem x hr))
    · have hmem' : a ∈ xs := by
        rcases List.mem_cons.mp hmem with h | h
        · exact absurd h.symm hxa
        · exact h
      have hmax' : ∀ r ∈ xs, p r = true → r = a ∨ r.createdAt < a.createdAt :=
        fun r hr => hmax r (List.mem_cons_of_mem x hr)
      by_cases hp : p x = true
      · have hxlt : x.createdAt < a.createdAt := by
          rcases hmax x (List.mem_cons_self x xs) hp with h | h
          · exact absurd h hxa
          · exact h
        have hstep : newerOf p init x = some x ∨
            ∃ b, newerOf p init x = some b ∧ b.createdAt < a.createdAt := by
          rcases hinit with h0 | ⟨b, hb, hblt⟩
          · subst h0
            refine Or.inl ?_
            show (if p x then some x else none) = some x
            rw [if_pos hp]
          · subst hb
            by_cases hc : b.createdAt < x.createdAt
            · refine Or.inl ?_
              show (if p x then (if b.createdAt < x.createdAt then some x else some b)
                  else some b) = some x
              rw [if_pos hp, if_pos hc]
            · refine Or.inr ⟨b, ?_, hblt⟩
              show (if p x then (if b.createdAt < x.createdAt then some x else some b)
                  else some b) = some b
              rw [if_pos hp, if_neg hc]
        rw [List.foldl_cons]
        rcases hstep with h | ⟨b, hb, hblt⟩
        · exact ih (newerOf p init x) hmem' hpa hmax' (Or.inr ⟨x, h, hxlt⟩)
        · exact ih (newerOf p init x) hmem' hpa hmax' (Or.inr ⟨b, hb, hblt⟩)
      · have hstep : newerOf p init x = init := by
          unfold newerOf
          rw [if_neg hp]
        rw [List.foldl_cons, hstep]
        exact ih init hmem' hpa hmax' hinit

theorem findNewest_eq_of_max {p : PhoneLoginCode → Bool} {l : List PhoneLoginCode}
    {a : PhoneLoginCode} (ha : a ∈ l) (hpa : p a = true)
    (hmax : ∀ r ∈ l, p r = true → r = a ∨ r.createdAt < a.createdAt) :
    findNewest p l = some a :=
  foldl_newerOf_max p a l none ha hpa hmax (Or.inl rfl)

theorem secureEqualHex_self (s : String) : secureEqualHex s s = true := by
  simp [secureEqualHex]

theorem getOtpTtlMinutes_bounds (envTtl : Option (Option ℚ)) :
    1 ≤ getOtpTtlMinutes envTtl ∧ getOtpTtlMinutes envTtl ≤ 15 := by
  match envTtl with
  | none => exact ⟨by decide, by decide⟩
  | some none => exact ⟨by decide, by decide⟩
  | some (some q) =>
    simp only [getOtpTtlMinutes]
    omega

theorem getOtpTtlMinutes_default (envTtl : Option (Option ℚ))
    (h : envTtl = none ∨ envTtl = some none) : getOtpTtlMinutes envTtl = 5 := by
  rcases h with h | h <;> rw [h] <;> rfl

theorem digitChar_isDigit {m : Nat} (h : m < 10) : (Nat.digitChar m).isDigit = true := by
  interval_cases m <;> decide

theorem toDigitsCore_isDigit :
    ∀ (fuel n : Nat) (ds : List Char), (∀ c ∈ ds, c.isDigit = true) →
      ∀ c ∈ Nat.toDigitsCore 10 fuel n ds, c.isDigit = true := by
  intro fuel
  induction fuel with
  | zero =>
    intro n ds hds c hc
    exact hds c hc
  | succ fuel ih =>
    intro n ds hds c hc
    simp only [Nat.toDigitsCore] at hc
    have hcons : ∀ c ∈ Nat.digitChar (n % 10) :: ds, c.isDigit = true := by
      intro c hc
      rcases List.mem_cons.mp hc with h | h
      · subst h; exact digitChar_isDigit (Nat.mod_lt n (by decide))
      · exact hds c h
    by_cases h0 : n / 10 = 0
    · rw [if_pos h0] at hc
      exact hcons c hc
    · rw [if_neg h0] at hc
      exact ih (n / 10) _ hcons c hc

theorem toDigitsCore_length :
    ∀ (k : Nat), 1 ≤ k → ∀ (fuel n : Nat) (ds : List Char), n < 10 ^ k →
      (Nat.toDigitsCore 10 fuel n ds).length ≤ ds.length + k := by
  intro k hk
  induction k, hk using Nat.le_induction with
  | base =>
    intro fuel n ds hn
    cases fuel with
    | zero => simp [Nat.toDigitsCore]
    | succ fuel =>
      have h0 : n / 10 = 0 := Nat.div_eq_of_lt (by simpa using hn)
      simp only [Nat.toDigitsCore]
      rw [if_pos h0]
      simp
  | succ k hk ih =>
    intro fuel n ds hn
    cases fuel with
    | zero => simp [Nat.toDigitsCore]
    | succ fuel =>
      simp only [Nat.toDigitsCore]
      by_cases h0 : n / 10 = 0
      · rw [if_pos h0]; simp
      · rw [if_neg h0]
        rw [pow_succ] at hn
        have hdiv : n / 10 < 10 ^ k := by omega
        have := ih fuel (n / 10) (Nat.digitChar (n % 10) :: ds) hdiv
        simp only [List.length_cons] at this
        omega

theorem repr_data_isDigit (n : Nat) : ∀ c ∈ (Nat.repr n).data, c.isDigit = true := by
  intro c hc
  have hd : (Nat.repr n).data = Nat.toDigitsCore 10 (n + 1) n [] := rfl
  rw [hd] at hc
  exact toDigitsCore_isDigit (n + 1) n [] (by intro c hc; cases hc) c hc

theorem repr_length_le {n k : Nat} (hk : 1 ≤ k) (hn : n < 10 ^ k) :
    (Nat.repr n).length ≤ k := by
  have hd : (Nat.repr n).length = (Nat.toDigitsCore 10 (n + 1) n []).length := rfl
  rw [hd]
  have := toDigitsCore_length k hk (n + 1) n [] hn
  simpa using this

theorem padCode_isSixDigits {rand : Nat} (h : rand < 10 ^ 6) :
    isSixDigits (padCode rand) = true := by
  have hlen : (Nat.repr rand).length ≤ 6 := repr_length_le (by decide) h
  simp only [padCode, isSixDigits, OTP_CODE_LENGTH, Bool.and_eq_true]
  constructor
  · have hdata : (Nat.repr rand).data.length = (Nat.repr rand).length := rfl
    simp only [List.length_append, List.length_replicate, beq_iff_eq]
    omega
  · simp only [List.all_eq_true]
    intro c hc
    rcases List.mem_append.mp hc with hmem | hmem
    · rcases List.mem_replicate.mp hmem with ⟨_, hc0⟩
      subst hc0; decide
    · exact repr_data_isDigit rand c hmem

theorem whitespaceCodes_no_digit {n : Nat} (h1 : 48 ≤ n) (h2 : n ≤ 57) :
    jsWhitespaceCodes.contains n = false := by
  interval_cases n <;> decide

theorem isDigit_not_whitespace {c : Char} (h : c.isDigit = true) :
    jsIsWhitespace c = false := by
  have h1 : 48 ≤ c.toNat ∧ c.toNat ≤ 57 := by
    simp only [Char.isDigit, Bool.and_eq_true, decide_eq_true_eq] at h
    exact ⟨h.1, h.2⟩
  exact whitespaceCodes_no_digit h1.1 h1.2

theorem stripWhitespace_eq_self {s : String}
    (h : ∀ c ∈ s.data, jsIsWhitespace c = false) : stripWhitespace s = s := by
  obtain ⟨d⟩ := s
  simp only [stripWhitespace]
  congr 1
  apply List.filter_eq_self.mpr
  intro a ha
  simp [h a ha]

theorem normalizeOtpCode_padCode {rand : Nat} (h : rand < 10 ^ 6) :
    normalizeOtpCode (padCode rand) = Except.ok (padCode rand) := by
  have hstrip : stripWhitespace (padCode rand) = padCode rand := by
    apply stripWhitespace_eq_self
    intro c hc
    apply isDigit_not_whitespace
    have hsix := padCode_isSixDigits h
    simp only [isSixDigits, Bool.and_eq_true, List.all_eq_true] at hsix
    exact hsix.2 c hc
  simp only [normalizeOtpCode, hstrip]
  rw [if_pos (padCode_isSixDigits h)]

theorem issue_rate_limited (hmac : String → String → String) (secret : String)
    (envTtl : Option (Option ℚ)) (rand nextId : Nat) (now : Int)
    (phoneNumber : String) (ip : Option String) (store : List PhoneLoginCode)
    (h : MAX_REQUESTS_PER_WINDOW ≤ recentCount now phoneNumber (purgeStore now store)) :
    issuePhoneLoginCode hmac secret envTtl rand nextId now phoneNumber ip store
      = (purgeStore now store,
         Except.error ⟨429, "Prea multe coduri solicitate. Incearca din nou in cateva minute."⟩) := by
  simp only [issuePhoneLoginCode]
  rw [if_pos h]

theorem issue_cooldown (hmac : String → String → String) (secret : String)
    (envTtl : Option (Option ℚ)) (rand nextId : Nat) (now : Int)
    (phoneNumber : String) (ip : Option String) (store : List PhoneLoginCode)
    (w : Int)
    (hcount : recentCount now phoneNumber (purgeStore now store) < MAX_REQUESTS_PER_WINDOW)
    (hcool : cooldownRemaining now phoneNumber (purgeStore now store) = some w) :
    issuePhoneLoginCode hmac secret envTtl rand nextId now phoneNumber ip store
      = (purgeStore now store,
         Except.error ⟨429, "Asteapta " ++ toString w ++ "s inainte de o noua solicitare"⟩) := by
  simp only [issuePhoneLoginCode, hcool]
  rw [if_neg (Nat.not_le.mpr hcount)]

theorem issue_success (hmac : String → String → String) (secret : String)
    (envTtl : Option (Option ℚ)) (rand nextId : Nat) (now : Int)
    (phoneNumber : String) (ip : Option String) (store : List PhoneLoginCode)
    (hcount : recentCount now phoneNumber (purgeStore now store) < MAX_REQUESTS_PER_WINDOW)
    (hcool : cooldownRemaining now phoneNumber (purgeStore now store) = none) :
    issuePhoneLoginCode hmac secret envTtl rand nextId now phoneNumber ip store
      = (purgeStore now store ++ [newRecord hmac secret envTtl rand nextId now phoneNumber ip],
         Except.ok (padCode rand, now + (getOtpTtlMinutes envTtl : Int) * 60 * 1000)) := by
  simp only [issuePhoneLoginCode, hcool]
  rw [if_neg (Nat.not_le.mpr hcount)]

theorem verify_malformed (hmac : String → String → String) (secret : String)
    (now : Int) (phoneNumber code : String) (store : List PhoneLoginCode)
    (e : HttpError) (h : normalizeOtpCode code = Except.error e) :
    verifyPhoneLoginCode hmac secret now phoneNumber code store
      = (store, Except.error e) := by
  simp only [verifyPhoneLoginCode, h]

theorem verify_no_active (hmac : String → String → String) (secret : String)
    (now : Int) (phoneNumber code nc : String) (store : List PhoneLoginCode)
    (hnorm : normalizeOtpCode code = Except.ok nc)
    (hsel : findNewest (isActiveFor phoneNumber now) store = none) :
    verifyPhoneLoginCode hmac secret now phoneNumber code store
      = (store, Except.ok false) := by
  simp only [verifyPhoneLoginCode, hnorm, hsel]

theorem verify_capped (hmac : String → String → String) (secret : String)
    (now : Int) (phoneNumber code nc : String) (store : List PhoneLoginCode)
    (a : PhoneLoginCode)
    (hnorm : normalizeOtpCode code = Except.ok nc)
    (hsel : findNewest (isActiveFor phoneNumber now) store = some a)
    (hcap : MAX_VERIFY_ATTEMPTS ≤ a.attempts) :
    verifyPhoneLoginCode hmac secret now phoneNumber code store
      = (store, Except.ok false) := by
  simp only [verifyPhoneLoginCode, hnorm, hsel]
  rw [if_pos hcap]

theorem verify_match (hmac : String → String → String) (secret : String)
    (now : Int) (phoneNumber code nc : String) (store : List PhoneLoginCode)
    (a : PhoneLoginCode)
    (hnorm : normalizeOtpCode code = Except.ok nc)
    (hsel : findNewest (isActiveFor phoneNumber now) store = some a)
    (hcap : a.attempts < MAX_VERIFY_ATTEMPTS)
    (hhash : secureEqualHex a.codeHash (hashOtpCode hmac secret phoneNumber nc) = true) :
    verifyPhoneLoginCode hmac secret now phoneNumber code store
      = (store.map (consumeAndBump now a.id), Except.ok true) := by
  simp only [verifyPhoneLoginCode, hnorm, hsel]
  rw [if_neg (Nat.not_le.mpr hcap), if_pos hhash]

theorem verify_mismatch (hmac : String → String → String) (secret : String)
    (now : Int) (phoneNumber code nc : String) (store : List PhoneLoginCode)
    (a : PhoneLoginCode)
    (hnorm : normalizeOtpCode code = Except.ok nc)
    (hsel : findNewest (isActiveFor phoneNumber now) store = some a)
    (hcap : a.attempts < MAX_VERIFY_ATTEMPTS)
    (hhash : secureEqualHex a.codeHash (hashOtpCode hmac secret phoneNumber nc) = false) :
    verifyPhoneLoginCode hmac secret now phoneNumber code store
      = (store.map (bumpAttempts a.id), Except.ok false) := by
  simp only [verifyPhoneLoginCode, hnorm, hsel]
  rw [if_neg (Nat.not_le.mpr hcap), if_neg (by simp [hhash])]

theorem normalizeOtpCode_cases (code : String) :
    normalizeOtpCode code = Except.ok (stripWhitespace code) ∨
    normalizeOtpCode code = Except.error ⟨400, "Codul trebuie sa aiba 6 cifre"⟩ := by
  simp only [normalizeOtpCode]
  by_cases h : isSixDigits (stripWhitespace code) = true
  · rw [if_pos h]; exact Or.inl rfl
  · rw [if_neg h]; exact Or.inr rfl

theorem verify_store_cases (hmac : String → String → String) (secret : String)
    (now : Int) (phoneNumber code : String) (store : List PhoneLoginCode) :
    (verifyPhoneLoginCode hmac secret now phoneNumber code store).1 = store ∨
    ∃ a, findNewest (isActiveFor phoneNumber now) store = some a ∧
      a.attempts < MAX_VERIFY_ATTEMPTS ∧
      ((verifyPhoneLoginCode hmac secret now phoneNumber code store).1
          = store.map (consumeAndBump now a.id) ∨
       (verifyPhoneLoginCode hmac secret now phoneNumber code store).1
          = store.map (bumpAttempts a.id)) := by
  rcases normalizeOtpCode_cases code with hnorm | hnorm
  · cases hsel : findNewest (isActiveFor phoneNumber now) store with
    | none =>
      rw [verify_no_active hmac secret now phoneNumber code _ store hnorm hsel]
      exact Or.inl rfl
    | some a =>
      by_cases hcap : MAX_VERIFY_ATTEMPTS ≤ a.attempts
      · rw [verify_capped hmac secret now phoneNumber code _ store a hnorm hsel hcap]
        exact Or.inl rfl
      · have hcap' : a.attempts < MAX_VERIFY_ATTEMPTS := Nat.not_le.mp hcap
        by_cases hhash : secureEqualHex a.codeHash
            (hashOtpCode hmac secret phoneNumber (stripWhitespace code)) = true
        · rw [verify_match hmac secret now phoneNumber code _ store a hnorm hsel hcap' hhash]
          exact Or.inr ⟨a, rfl, hcap', Or.inl rfl⟩
        · rw [verify_mismatch hmac secret now phoneNumber code _ store a hnorm hsel hcap'
            (Bool.not_eq_true _ ▸ Bool.of_not_eq_true hhash)]
          exact Or.inr ⟨a, rfl, hcap', Or.inr rfl⟩
  · rw [verify_malformed hmac secret now phoneNumber code store _ hnorm]
    exact Or.inl rfl

theorem mem_purgeStore {now : Int} {store : List PhoneLoginCode} {r : PhoneLoginCode}
    (h : r ∈ purgeStore now store) : r ∈ store :=
  (List.mem_filter.mp h).1

theorem issue_store_cases (hmac : String → String → String) (secret : String)
    (envTtl : Option (Option ℚ)) (rand nextId : Nat) (now : Int)
    (phoneNumber : String) (ip : Option String) (store : List PhoneLoginCode) :
    (issuePhoneLoginCode hmac secret envTtl rand nextId now phoneNumber ip store).1
        = purgeStore now store ∨
    (issuePhoneLoginCode hmac secret envTtl rand nextId now phoneNumber ip store).1
        = purgeStore now store
          ++ [newRecord hmac secret envTtl rand nextId now phoneNumber ip] := by
  by_cases h1 : MAX_REQUESTS_PER_WINDOW ≤ recentCount now phoneNumber (purgeStore now store)
  · rw [issue_rate_limited hmac secret envTtl rand nextId now phoneNumber ip store h1]
    exact Or.inl rfl
  · have h1' := Nat.not_le.mp h1
    cases h2 : cooldownRemaining now phoneNumber (purgeStore now store) with
    | some w =>
      rw [issue_cooldown hmac secret envTtl rand nextId now phoneNumber ip store w h1' h2]
      exact Or.inl rfl
    | none =>
      rw [issue_success hmac secret envTtl rand nextId now phoneNumber ip store h1' h2]
      exact Or.inr rfl

theorem bumpAttempts_id (targetId : Nat) (r : PhoneLoginCode) :
    (bumpAttempts targetId r).id = r.id := by
  unfold bumpAttempts; split <;> rfl

theorem consumeAndBump_id (now : Int) (targetId : Nat) (r : PhoneLoginCode) :
    (consumeAndBump now targetId r).id = r.id := by
  unfold consumeAndBump; split <;> rfl

theorem goodState_init : GoodState initState := by
  constructor
  · intro r hr; cases hr
  · simp [initState]

theorem goodState_issue (hmac : String → String → String) (secret : String)
    (envTtl : Option (Option ℚ)) (rand : Nat) (now : Int) (phoneNumber : String)
    (ip : Option String) (s : SysState) (hg : GoodState s) :
    GoodState
      { store := (issuePhoneLoginCode hmac secret envTtl rand s.nextId now
          phoneNumber ip s.store).1,
        nextId := s.nextId + 1 } := by
  obtain ⟨hb, hn⟩ := hg
  have hpb : ∀ r ∈ purgeStore now s.store,
      r.attempts ≤ MAX_VERIFY_ATTEMPTS ∧ r.id < s.nextId + 1 := by
    intro r hr
    obtain ⟨h1, h2⟩ := hb r (mem_purgeStore hr)
    exact ⟨h1, Nat.lt_succ_of_lt h2⟩
  have hpn : ((purgeStore now s.store).map (fun r => r.id)).Nodup := by
    have hsub : ((purgeStore now s.store).map (fun r => r.id)).Sublist
        (s.store.map (fun r => r.id)) :=
      List.Sublist.map _ (List.filter_sublist _)
    exact List.Nodup.sublist hsub hn
  rcases issue_store_cases hmac secret envTtl rand s.nextId now phoneNumber ip s.store
    with h | h <;> rw [h]
  · exact ⟨hpb, hpn⟩
  · constructor
    · intro r hr
      rcases List.mem_append.mp hr with h1 | h1
      · exact hpb r h1
      · have h2 : r = newRecord hmac secret envTtl rand s.nextId now phoneNumber ip :=
          List.mem_singleton.mp h1
        subst h2
        exact ⟨by simp [newRecord], Nat.lt_succ_self _⟩
    · rw [List.map_append]
      apply List.Nodup.append hpn (by simp)
      intro i hi hi'
      simp only [List.map_cons, List.map_nil, List.mem_singleton] at hi'
      rcases List.mem_map.mp hi with ⟨r, hr, h3⟩
      have h4 : r.id < s.nextId := (hb r (mem_purgeStore hr)).2
      have h5 : (newRecord hmac secret envTtl rand s.nextId now phoneNumber ip).id
          = s.nextId := rfl
      omega

theorem goodState_verify (hmac : String → String → String) (secret : String)
    (now : Int) (phoneNumber code : String) (s : SysState) (hg : GoodState s) :
    GoodState
      { store := (verifyPhoneLoginCode hmac secret now phoneNumber code s.store).1,
        nextId := s.nextId } := by
  obtain ⟨hb, hn⟩ := hg
  rcases verify_store_cases hmac secret now phoneNumber code s.store
    with h | ⟨a, hsel, hcap, h⟩
  · rw [h]; exact ⟨hb, hn⟩
  · have hamem := (findNewest_mem hsel).1
    have hinj := List.inj_on_of_nodup_map hn
    rcases h with h | h <;> rw [h]
    · constructor
      · intro r' hr'
        rcases List.mem_map.mp hr' with ⟨r, hr, h3⟩
        by_cases hid : (r.id == a.id) = true
        · have hfr : consumeAndBump now a.id r
              = { r with consumedAt := some now, attempts := r.attempts + 1 } := by
            unfold consumeAndBump; rw [if_pos hid]
          have hra : r = a := hinj hr hamem (by simpa using hid)
          subst h3
          rw [hfr]
          refine ⟨?_, (hb r hr).2⟩
          subst hra
          simpa using hcap
        · have hfr : consumeAndBump now a.id r = r := by
            unfold consumeAndBump; rw [if_neg (by simpa using hid)]
          subst h3
          rw [hfr]
          exact hb r hr
      · rw [List.map_map]
        have hcongr : ∀ r ∈ s.store, ((fun r => r.id) ∘ consumeAndBump now a.id) r
            = (fun r => r.id) r := fun r _ => consumeAndBump_id now a.id r
        rw [List.map_congr_left hcongr]
        exact hn
    · constructor
      · intro r' hr'
        rcases List.mem_map.mp hr' with ⟨r, hr, h3⟩
        by_cases hid : (r.id == a.id) = true
        · have hfr : bumpAttempts a.id r = { r with attempts := r.attempts + 1 } := by
            unfold bumpAttempts; rw [if_pos hid]
          have hra : r = a := hinj hr hamem (by simpa using hid)
          subst h3
          rw [hfr]
          refine ⟨?_, (hb r hr).2⟩
          subst hra
          simpa using hcap
        · have hfr : bumpAttempts a.id r = r := by
            unfold bumpAttempts; rw [if_neg (by simpa using hid)]
          subst h3
          rw [hfr]
          exact hb r hr
      · rw [List.map_map]
        have hcongr : ∀ r ∈ s.store, ((fun r => r.id) ∘ bumpAttempts a.id) r
            = (fun r => r.id) r := fun r _ => bumpAttempts_id a.id r
        rw [List.map_congr_left hcongr]
        exact hn

theorem goodState_runOp (hmac : String → String → String) (secret : String)
    (envTtl : Option (Option ℚ)) (s : SysState) (op : Op) (hg : GoodState s) :
    GoodState (runOp hmac secret envTtl s op) := by
  cases op with
  | issueOp rand now phoneNumber ip =>
    exact goodState_issue hmac secret envTtl rand now phoneNumber ip s hg
  | verifyOp now phoneNumber code =>
    exact goodState_verify hmac secret now phoneNumber code s hg

theorem goodState_foldl (hmac : String → String → String) (secret : String)
    (envTtl : Option (Option ℚ)) :
    ∀ (ops : List Op) (s : SysState), GoodState s →
      GoodState (ops.foldl (runOp hmac secret envTtl) s) := by
  intro ops
  induction ops with
  | nil => intro s hg; exact hg
  | cons op ops ih =>
    intro s hg
    rw [List.foldl_cons]
    exact ih _ (goodState_runOp hmac secret envTtl s op hg)

theorem runOps_good (hmac : String → String → String) (secret : String)
    (envTtl : Option (Option ℚ)) (ops : List Op) :
    GoodState (runOps hmac secret envTtl ops) :=
  goodState_foldl hmac secret envTtl ops initState goodState_init

theorem isActiveFor_phone {phoneNumber : String} {now : Int} {r : PhoneLoginCode}
    (h : isActiveFor phoneNumber now r = true) : r.phoneNumber = phoneNumber := by
  simp only [isActiveFor, Bool.and_eq_true, beq_iff_eq, decide_eq_true_eq] at h
  exact h.1.1

theorem isActiveFor_consumed {phoneNumber : String} {now : Int} {r : PhoneLoginCode}
    (h : isActiveFor phoneNumber now r = true) : r.consumedAt = none := by
  simp only [isActiveFor, Bool.and_eq_true, beq_iff_eq, decide_eq_true_eq] at h
  exact h.1.2

/-! ### Claim theorems -/

/-- Claim C8: a submitted code that is not exactly six digits after
whitespace stripping makes `verifyPhoneLoginCode` throw the validation
error `HttpError 400` — it does not silently return false — and the store
is left unmodified. -/
theorem c8_malformed_code_rejected (hmac : String → String → String) (secret : String)
    (now : Int) (phoneNumber code : String) (store : List PhoneLoginCode)
    (h : isSixDigits (stripWhitespace code) = false) :
    verifyPhoneLoginCode hmac secret now phoneNumber code store
      = (store, Except.error ⟨400, "Codul trebuie sa aiba 6 cifre"⟩) := by
  apply verify_malformed
  simp only [normalizeOtpCode]
  rw [if_neg (by simp [h])]

/-- Witness for C8 at the five-character code "12345". -/
theorem c8_malformed_code_rejected_witness :
    verifyPhoneLoginCode hmacDemo "k" 0 "+40711111111" "12345" []
      = ([], Except.error ⟨400, "Codul trebuie sa aiba 6 cifre"⟩) :=
  c8_malformed_code_rejected hmacDemo "k" 0 "+40711111111" "12345" [] (by decide)

/-- Claim C3: when the newest active record selected for the phone number
has an attempt counter at or above the maximum (5), verification returns
false with the store unchanged — no hash comparison happens, so even the
correct code is rejected. -/
theorem c3_attempts_exhausted (hmac : String → String → String) (secret : String)
    (now : Int) (phoneNumber code nc : String) (store : List PhoneLoginCode)
    (a : PhoneLoginCode)
    (hnorm : normalizeOtpCode code = Except.ok nc)
    (hsel : findNewest (isActiveFor phoneNumber now) store = some a)
    (hcap : MAX_VERIFY_ATTEMPTS ≤ a.attempts) :
    verifyPhoneLoginCode hmac secret now phoneNumber code store
      = (store, Except.ok false) :=
  verify_capped hmac secret now phoneNumber code nc store a hnorm hsel hcap

/-- Witness for C3: the record is exhausted (attempts = 5) and the submitted
code "123456" is the correct one (its hash equals the stored hash), yet
verification returns false and changes nothing. -/
theorem c3_attempts_exhausted_witness :
    verifyPhoneLoginCode hmacDemo "k" 0 "+40711111111" "123456" [exhaustedRecord]
      = ([exhaustedRecord], Except.ok false) ∧
    secureEqualHex exhaustedRecord.codeHash
      (hashOtpCode hmacDemo "k" "+40711111111" "123456") = true :=
  ⟨c3_attempts_exhausted hmacDemo "k" 0 "+40711111111" "123456" "123456"
      [exhaustedRecord] exhaustedRecord rfl rfl (by decide),
   by decide⟩

/-- Claim C2 (counterexample): in the replay trace the same 6-digit random
value is drawn for two issuances 60 s apart, so two active records carry
the same code hash. The first verification with "111111" succeeds and
consumes the newer record (id 1), yet a later verification with the same
phone number and the same code succeeds again — refuting the unconditional
claim that every later call returns false. -/
theorem c2_no_replay_counterexample :
    replayVerify1.2 = Except.ok true ∧
    (∃ r ∈ replayVerify1.1, r.id = 1 ∧ r.consumedAt = some 61000) ∧
    replayVerify2.2 = Except.ok true :=
  ⟨rfl, by decide, rfl⟩

/-- Claim C2 (amended): (1) if every active (unconsumed, unexpired) record
for the phone number has a stored hash that does not match the submitted
code — in particular when the only record whose hash matches has been
consumed — verification returns false, so a consumed record is never
validated again; (2) verification never clears a consumed timestamp: every
unconsumed record of its post-store had an unconsumed record with the same
id in the pre-store; (3) issuance never clears a consumed timestamp
either: every unconsumed record of its post-store was already present or
is the freshly created row. -/
theorem c2_no_replay_amended :
    (∀ (hmac : String → String → String) (secret : String) (now : Int)
       (phoneNumber code nc : String) (store : List PhoneLoginCode),
       normalizeOtpCode code = Except.ok nc →
       (∀ r ∈ store, isActiveFor phoneNumber now r = true →
         secureEqualHex r.codeHash (hashOtpCode hmac secret phoneNumber nc) = false) →
       (verifyPhoneLoginCode hmac secret now phoneNumber code store).2
         = Except.ok false) ∧
    (∀ (hmac : String → String → String) (secret : String) (now : Int)
       (phoneNumber code : String) (store : List PhoneLoginCode)
       (r : PhoneLoginCode),
       r ∈ (verifyPhoneLoginCode hmac secret now phoneNumber code store).1 →
       r.consumedAt = none →
       ∃ r0 ∈ store, r0.id = r.id ∧ r0.consumedAt = none) ∧
    (∀ (hmac : String → String → String) (secret : String)
       (envTtl : Option (Option ℚ)) (rand nextId : Nat) (now : Int)
       (phoneNumber : String) (ip : Option String) (store : List PhoneLoginCode)
       (r : PhoneLoginCode),
       r ∈ (issuePhoneLoginCode hmac secret envTtl rand nextId now phoneNumber ip store).1 →
       r.consumedAt = none → r ∈ store ∨ r.id = nextId) := by
  refine ⟨?_, ?_, ?_⟩
  · intro hmac secret now phoneNumber code nc store hnorm hmiss
    cases hsel : findNewest (isActiveFor phoneNumber now) store with
    | none =>
      rw [verify_no_active hmac secret now phoneNumber code nc store hnorm hsel]
    | some a =>
      obtain ⟨hamem, hact⟩ := findNewest_mem hsel
      by_cases hcap : MAX_VERIFY_ATTEMPTS ≤ a.attempts
      · rw [verify_capped hmac secret now phoneNumber code nc store a hnorm hsel hcap]
      · rw [verify_mismatch hmac secret now phoneNumber code nc store a hnorm hsel
          (Nat.not_le.mp hcap) (hmiss a hamem hact)]
  · intro hmac secret now phoneNumber code store r hr hnone
    rcases verify_store_cases hmac secret now phoneNumber code store
      with h | ⟨a, _, _, h | h⟩ <;> rw [h] at hr
    · exact ⟨r, hr, rfl, hnone⟩
    · rcases List.mem_map.mp hr with ⟨r0, hr0, h3⟩
      by_cases hid : (r0.id == a.id) = true
      · have hfr : consumeAndBump now a.id r0
            = { r0 with consumedAt := some now, attempts := r0.attempts + 1 } := by
          unfold consumeAndBump; rw [if_pos hid]
        rw [hfr] at h3
        rw [← h3] at hnone
        exact absurd hnone (by simp)
      · have hfr : consumeAndBump now a.id r0 = r0 := by
          unfold consumeAndBump; rw [if_neg (by simpa using hid)]
        rw [hfr] at h3
        subst h3
        exact ⟨r0, hr0, rfl, hnone⟩
    · rcases List.mem_map.mp hr with ⟨r0, hr0, h3⟩
      by_cases hid : (r0.id == a.id) = true
      · have hfr : bumpAttempts a.id r0 = { r0 with attempts := r0.attempts + 1 } := by
          unfold bumpAttempts; rw [if_pos hid]
        rw [hfr] at h3
        subst h3
        exact ⟨r0, hr0, rfl, hnone⟩
      · have hfr : bumpAttempts a.id r0 = r0 := by
          unfold bumpAttempts; rw [if_neg (by simpa using hid)]
        rw [hfr] at h3
        subst h3
        exact ⟨r0, hr0, rfl, hnone⟩
  · intro hmac secret envTtl rand nextId now phoneNumber ip store r hr _
    rcases issue_store_cases hmac secret envTtl rand nextId now phoneNumber ip store
      with h | h <;> rw [h] at hr
    · exact Or.inl (mem_purgeStore hr)
    · rcases List.mem_append.mp hr with h1 | h1
      · exact Or.inl (mem_purgeStore h1)
      · have h2 : r = newRecord hmac secret envTtl rand nextId now phoneNumber ip :=
          List.mem_singleton.mp h1
        subst h2
        exact Or.inr rfl

/-- Witness for the amended C2: a store whose only record matches the
submitted code but is already consumed; verification returns false. -/
theorem c2_no_replay_amended_witness :
    (verifyPhoneLoginCode hmacDemo "k" 10000 "+40788888888" "111111" [consumedRecord]).2
      = Except.ok false :=
  c2_no_replay_amended.1 hmacDemo "k" 10000 "+40788888888" "111111" "111111"
    [consumedRecord] rfl (by decide)

/-- Claim C4 (counterexample): five codes are created for `ratePhone` at
0 s, 60 s, 120 s, 180 s and 240 s, each consumed by a successful
verification; the sixth issuance at 300 s — within 15 minutes of all five
creations — succeeds instead of throwing the rate-limit error, because the
purge removed the consumed records before the window count. -/
theorem c4_rate_limit_counterexample :
    rateIssue1.2 = Except.ok ("000000", 300000) ∧
    rateVerify1.2 = Except.ok true ∧
    rateIssue2.2 = Except.ok ("000001", 360000) ∧
    rateVerify2.2 = Except.ok true ∧
    rateIssue3.2 = Except.ok ("000002", 420000) ∧
    rateVerify3.2 = Except.ok true ∧
    rateIssue4.2 = Except.ok ("000003", 480000) ∧
    rateVerify4.2 = Except.ok true ∧
    rateIssue5.2 = Except.ok ("000004", 540000) ∧
    rateVerify5.2 = Except.ok true ∧
    rateIssue6.2 = Except.ok ("000005", 600000) :=
  ⟨rfl, rfl, rfl, rfl, rfl, rfl, rfl, rfl, rfl, rfl, rfl⟩

/-- Claim C5 (counterexample): a code is issued at 0 s and verified
successfully at 10 s; a second issuance for the same number at 20 s — less
than 60 seconds after the most recent code was created — succeeds instead
of throwing the cooldown error, because the consumed record was purged
before the cooldown lookup. -/
theorem c5_cooldown_counterexample :
    coolIssue1.2 = Except.ok ("000007", 300000) ∧
    coolVerify.2 = Except.ok true ∧
    coolIssue2.2 = Except.ok ("000008", 320000) :=
  ⟨rfl, rfl, rfl⟩

/-- Claim C10 (counterexample): after the duplicate-draw trace, the store
holds an older active record (id 0) whose plaintext code is "222222" and a
newer active record (id 1); submitting "222222" — the plaintext of the
older record — returns true, not false, because the newer record carries
the same hash. -/
theorem c10_newest_only_counterexample :
    (∃ r ∈ dupStore1, r.id = 0 ∧ r.createdAt = 0 ∧ r.consumedAt = none ∧
      (61000 : Int) < r.expiresAt ∧
      r.codeHash = hashOtpCode hmacDemo "k" "+40733333333" "222222") ∧
    (∃ r ∈ dupStore1, r.id = 1 ∧ r.createdAt = 60000 ∧ r.consumedAt = none ∧
      (61000 : Int) < r.expiresAt) ∧
    dupVerify.2 = Except.ok true :=
  ⟨by decide, by decide, rfl⟩

/-- Claim C4 (amended): if at least five records for the phone number were
created within the trailing 15-minute window AND are still live at call
time — unexpired, unconsumed, and below the attempt cap, so that the purge
keeps them — then the issuance throws the 429 rate-limit error. -/
theorem c4_rate_limit_amended (hmac : String → String → String) (secret : String)
    (envTtl : Option (Option ℚ)) (rand nextId : Nat) (now : Int)
    (phoneNumber : String) (ip : Option String) (store : List PhoneLoginCode)
    (h : MAX_REQUESTS_PER_WINDOW ≤
      (store.filter (fun r =>
        r.phoneNumber == phoneNumber &&
        decide (now - REQUEST_WINDOW_MINUTES * 60 * 1000 ≤ r.createdAt) &&
        decide (now ≤ r.expiresAt) && r.consumedAt == none &&
        decide (r.attempts < MAX_VERIFY_ATTEMPTS))).length) :
    issuePhoneLoginCode hmac secret envTtl rand nextId now phoneNumber ip store
      = (purgeStore now store,
         Except.error ⟨429, "Prea multe coduri solicitate. Incearca din nou in cateva minute."⟩) := by
  apply issue_rate_limited
  have heq : recentCount now phoneNumber (purgeStore now store)
      = (store.filter (fun r =>
          r.phoneNumber == phoneNumber &&
          decide (now - REQUEST_WINDOW_MINUTES * 60 * 1000 ≤ r.createdAt) &&
          decide (now ≤ r.expiresAt) && r.consumedAt == none &&
          decide (r.attempts < MAX_VERIFY_ATTEMPTS))).length := by
    simp only [recentCount, purgeStore, List.filter_filter]
    congr 1
    apply List.filter_congr
    intro r _
    rcases hc : r.consumedAt with _ | t
    · rw [Bool.eq_iff_iff]
      simp [isPurged, hc, Int.not_lt, Nat.not_le]
      tauto
    · rw [Bool.eq_iff_iff]
      simp [isPurged, hc, Int.not_lt, Nat.not_le]
  rw [heq]
  exact h

/-- Witness for the amended C4: five live records created within the last
15 minutes make the sixth issuance fail with the rate-limit error. -/
theorem c4_rate_limit_amended_witness :
    issuePhoneLoginCode hmacDemo "k" none 9 9 241000 "+40799999999" none busyStore
      = (purgeStore 241000 busyStore,
         Except.error ⟨429, "Prea multe coduri solicitate. Incearca din nou in cateva minute."⟩) :=
  c4_rate_limit_amended hmacDemo "k" none 9 9 241000 "+40799999999" none busyStore
    (by decide)

/-- Claim C5 (amended): when the rate-limit count (over purge survivors)
passes, if the newest record for the phone number that survives the purge
was created less than 60 seconds ago, issuance throws the 429 cooldown
error reporting the remaining whole seconds. -/
theorem c5_cooldown_amended (hmac : String → String → String) (secret : String)
    (envTtl : Option (Option ℚ)) (rand nextId : Nat) (now : Int)
    (phoneNumber : String) (ip : Option String) (store : List PhoneLoginCode)
    (latest : PhoneLoginCode)
    (hcount : recentCount now phoneNumber (purgeStore now store) < MAX_REQUESTS_PER_WINDOW)
    (hlatest : findNewest (fun r => r.phoneNumber == phoneNumber) (purgeStore now store)
        = some latest)
    (hcool : Int.fdiv (now - latest.createdAt) 1000 < RESEND_COOLDOWN_SECONDS) :
    issuePhoneLoginCode hmac secret envTtl rand nextId now phoneNumber ip store
      = (purgeStore now store,
         Except.error ⟨429, "Asteapta "
           ++ toString (RESEND_COOLDOWN_SECONDS - Int.fdiv (now - latest.createdAt) 1000)
           ++ "s inainte de o noua solicitare"⟩) := by
  apply issue_cooldown hmac secret envTtl rand nextId now phoneNumber ip store _ hcount
  simp only [cooldownRemaining, hlatest]
  rw [if_pos hcool]

/-- Witness for the amended C5: one live record created 30 s ago; the next
issuance reports a 30 s wait. -/
theorem c5_cooldown_amended_witness :
    issuePhoneLoginCode hmacDemo "k" none 3 1 30000 "+40799999999" none
        [activeRecordAt 0 0]
      = (purgeStore 30000 [activeRecordAt 0 0],
         Except.error ⟨429, "Asteapta "
           ++ toString (RESEND_COOLDOWN_SECONDS
               - Int.fdiv (30000 - (activeRecordAt 0 0).createdAt) 1000)
           ++ "s inainte de o noua solicitare"⟩) :=
  c5_cooldown_amended hmacDemo "k" none 3 1 30000 "+40799999999" none
    [activeRecordAt 0 0] (activeRecordAt 0 0) (by decide) rfl (by decide)

/-- Claim C6: whenever the verifier reaches the hash check (a newest active
record exists and its attempt counter is below the cap), the attempt
counter of the selected record is incremented by exactly one — the same in
the matching and the mismatching branch — the record is marked consumed
exactly on a match, the returned boolean is the comparison outcome, and
records with other ids are untouched. -/
theorem c6_attempt_increment (hmac : String → String → String) (secret : String)
    (now : Int) (phoneNumber code nc : String) (store : List PhoneLoginCode)
    (a : PhoneLoginCode)
    (hnorm : normalizeOtpCode code = Except.ok nc)
    (hsel : findNewest (isActiveFor phoneNumber now) store = some a)
    (hcap : a.attempts < MAX_VERIFY_ATTEMPTS) :
    (verifyPhoneLoginCode hmac secret now phoneNumber code store).2
      = Except.ok (secureEqualHex a.codeHash (hashOtpCode hmac secret phoneNumber nc)) ∧
    (∃ r ∈ (verifyPhoneLoginCode hmac secret now phoneNumber code store).1,
      r.id = a.id ∧ r.attempts = a.attempts + 1 ∧
      r.consumedAt
        = (if secureEqualHex a.codeHash (hashOtpCode hmac secret phoneNumber nc)
           then some now else a.consumedAt)) ∧
    (∀ r ∈ store, r.id ≠ a.id →
      r ∈ (verifyPhoneLoginCode hmac secret now phoneNumber code store).1) := by
  have hmem := (findNewest_mem hsel).1
  by_cases hhash : secureEqualHex a.codeHash (hashOtpCode hmac secret phoneNumber nc) = true
  · rw [verify_match hmac secret now phoneNumber code nc store a hnorm hsel hcap hhash]
    refine ⟨by rw [hhash], ?_, ?_⟩
    · refine ⟨consumeAndBump now a.id a, List.mem_map_of_mem _ hmem, ?_⟩
      rw [hhash]
      have hfa : consumeAndBump now a.id a
          = { a with consumedAt := some now, attempts := a.attempts + 1 } := by
        unfold consumeAndBump; rw [if_pos (by simp)]
      rw [hfa]
      exact ⟨rfl, rfl, rfl⟩
    · intro r hr hne
      have hfr : consumeAndBump now a.id r = r := by
        unfold consumeAndBump; rw [if_neg (by simpa using hne)]
      exact hfr ▸ List.mem_map_of_mem _ hr
  · have hhash' : secureEqualHex a.codeHash (hashOtpCode hmac secret phoneNumber nc)
        = false := by
      simpa using hhash
    rw [verify_mismatch hmac secret now phoneNumber code nc store a hnorm hsel hcap hhash']
    refine ⟨by rw [hhash'], ?_, ?_⟩
    · refine ⟨bumpAttempts a.id a, List.mem_map_of_mem _ hmem, ?_⟩
      rw [hhash']
      have hfa : bumpAttempts a.id a = { a with attempts := a.attempts + 1 } := by
        unfold bumpAttempts; rw [if_pos (by simp)]
      rw [hfa]
      exact ⟨rfl, rfl, rfl⟩
    · intro r hr hne
      have hfr : bumpAttempts a.id r = r := by
        unfold bumpAttempts; rw [if_neg (by simpa using hne)]
      exact hfr ▸ List.mem_map_of_mem _ hr

/-- Witness for C6: a mismatching submission against an active record with
two prior attempts; the result is the comparison outcome (false here). -/
theorem c6_attempt_increment_witness :
    (verifyPhoneLoginCode hmacDemo "k" 1000 "+40766666666" "999999"
        [sampleActiveRecord]).2
      = Except.ok (secureEqualHex sampleActiveRecord.codeHash
          (hashOtpCode hmacDemo "k" "+40766666666" "999999")) :=
  (c6_attempt_increment hmacDemo "k" 1000 "+40766666666" "999999" "999999"
    [sampleActiveRecord] sampleActiveRecord rfl rfl (by decide)).1

/-- Claim C7: a successful issuance appends exactly one new record to the
purged store; the record stores the keyed hash of the phone number and
code (the plaintext code appears in no field — only its hash), its expiry
is the call time plus the TTL, the TTL is an integer number of minutes
between 1 and 15 (5 when the setting is unset or non-numeric), and the
call returns the plaintext code together with that expiry. -/
theorem c7_issue_postcondition (hmac : String → String → String) (secret : String)
    (envTtl : Option (Option ℚ)) (rand nextId : Nat) (now : Int)
    (phoneNumber : String) (ip : Option String) (store : List PhoneLoginCode)
    (code : String) (expiresAt : Int)
    (h : (issuePhoneLoginCode hmac secret envTtl rand nextId now phoneNumber ip store).2
          = Except.ok (code, expiresAt)) :
    (issuePhoneLoginCode hmac secret envTtl rand nextId now phoneNumber ip store).1
      = purgeStore now store
          ++ [{ id := nextId, phoneNumber := phoneNumber,
                codeHash := hashOtpCode hmac secret phoneNumber code,
                expiresAt := expiresAt, attempts := 0, consumedAt := none,
                requestedByIp := ip, createdAt := now }] ∧
    code = padCode rand ∧
    expiresAt = now + (getOtpTtlMinutes envTtl : Int) * 60 * 1000 ∧
    1 ≤ getOtpTtlMinutes envTtl ∧ getOtpTtlMinutes envTtl ≤ 15 ∧
    (envTtl = none ∨ envTtl = some none → getOtpTtlMinutes envTtl = 5) := by
  by_cases h1 : MAX_REQUESTS_PER_WINDOW ≤ recentCount now phoneNumber (purgeStore now store)
  · rw [issue_rate_limited hmac secret envTtl rand nextId now phoneNumber ip store h1] at h
    exact absurd h (by simp)
  · have h1' := Nat.not_le.mp h1
    cases h2 : cooldownRemaining now phoneNumber (purgeStore now store) with
    | some w =>
      rw [issue_cooldown hmac secret envTtl rand nextId now phoneNumber ip store w h1' h2]
        at h
      exact absurd h (by simp)
    | none =>
      have hs := issue_success hmac secret envTtl rand nextId now phoneNumber ip store h1' h2
      rw [hs] at h
      have h3 : (padCode rand, now + (getOtpTtlMinutes envTtl : Int) * 60 * 1000)
          = (code, expiresAt) := by
        injection h
      injection h3 with hcode hexp
      subst hcode
      subst hexp
      rw [hs]
      exact ⟨rfl, rfl, rfl, (getOtpTtlMinutes_bounds envTtl).1,
        (getOtpTtlMinutes_bounds envTtl).2, getOtpTtlMinutes_default envTtl⟩

/-- Witness for C7 at a concrete successful issuance (code "000042",
expiry five minutes after time zero). -/
theorem c7_issue_postcondition_witness :
    (issuePhoneLoginCode hmacDemo "k" none 42 0 0 "+40700000000" none []).1
      = purgeStore 0 []
          ++ [{ id := 0, phoneNumber := "+40700000000",
                codeHash := hashOtpCode hmacDemo "k" "+40700000000" "000042",
                expiresAt := 300000, attempts := 0, consumedAt := none,
                requestedByIp := none, createdAt := 0 }] ∧
    "000042" = padCode 42 ∧
    (300000 : Int) = 0 + (getOtpTtlMinutes none : Int) * 60 * 1000 ∧
    1 ≤ getOtpTtlMinutes none ∧ getOtpTtlMinutes none ≤ 15 ∧
    ((none : Option (Option ℚ)) = none ∨ (none : Option (Option ℚ)) = some none →
      getOtpTtlMinutes none = 5) :=
  c7_issue_postcondition hmacDemo "k" none 42 0 0 "+40700000000" none [] "000042" 300000 rfl

/-- Claim C10 (amended): with several active records for one phone number,
verification compares the submitted code only against the strictly newest
active record. Provided the submitted code's hash does not also match the
newest record's stored hash (distinct codes, no hash collision), the call
returns false, increments only the newest record's attempt counter
(leaving it unconsumed), and leaves the older active record unchanged. -/
theorem c10_newest_only_amended (hmac : String → String → String) (secret : String)
    (now : Int) (phoneNumber code nc : String) (store : List PhoneLoginCode)
    (newest older : PhoneLoginCode)
    (hnorm : normalizeOtpCode code = Except.ok nc)
    (hmemN : newest ∈ store)
    (hactN : isActiveFor phoneNumber now newest = true)
    (hmax : ∀ r ∈ store, isActiveFor phoneNumber now r = true →
      r = newest ∨ r.createdAt < newest.createdAt)
    (hcap : newest.attempts < MAX_VERIFY_ATTEMPTS)
    (hmemO : older ∈ store)
    (_hactO : isActiveFor phoneNumber now older = true)
    (_hold : older.codeHash = hashOtpCode hmac secret phoneNumber nc)
    (hidO : older.id ≠ newest.id)
    (hhash : secureEqualHex newest.codeHash (hashOtpCode hmac secret phoneNumber nc)
        = false) :
    (verifyPhoneLoginCode hmac secret now phoneNumber code store).2 = Except.ok false ∧
    (∃ r ∈ (verifyPhoneLoginCode hmac secret now phoneNumber code store).1,
      r.id = newest.id ∧ r.attempts = newest.attempts + 1 ∧ r.consumedAt = none) ∧
    older ∈ (verifyPhoneLoginCode hmac secret now phoneNumber code store).1 := by
  have hsel : findNewest (isActiveFor phoneNumber now) store = some newest :=
    findNewest_eq_of_max hmemN hactN hmax
  rw [verify_mismatch hmac secret now phoneNumber code nc store newest hnorm hsel hcap hhash]
  refine ⟨rfl, ?_, ?_⟩
  · refine ⟨bumpAttempts newest.id newest, List.mem_map_of_mem _ hmemN, ?_⟩
    have hfa : bumpAttempts newest.id newest
        = { newest with attempts := newest.attempts + 1 } := by
      unfold bumpAttempts; rw [if_pos (by simp)]
    rw [hfa]
    exact ⟨rfl, rfl, isActiveFor_consumed hactN⟩
  · have hfr : bumpAttempts newest.id older = older := by
      unfold bumpAttempts; rw [if_neg (by simpa using hidO)]
    exact hfr ▸ List.mem_map_of_mem _ hmemO

/-- Witness for the amended C10: submitting the older active record's code
"101010" against a store that also holds a newer active record with a
different hash returns false. -/
theorem c10_newest_only_amended_witness :
    (verifyPhoneLoginCode hmacDemo "k" 61000 "+40712341234" "101010"
        [olderActive, newerActive]).2 = Except.ok false :=
  (c10_newest_only_amended hmacDemo "k" 61000 "+40712341234" "101010" "101010"
    [olderActive, newerActive] newerActive olderActive rfl (by decide) (by decide)
    (by decide) (by decide) (by decide) (by decide) rfl (by decide) (by decide)).1

/-- Claim C1: starting from a store holding no records for the phone
number, issuing succeeds, returning a six-digit code with the expiry
`now + ttl`; verifying that code for the same phone number at any time
before the expiry (with no operations in between) returns true and leaves
the created record marked consumed. -/
theorem c1_issue_verify_roundtrip (hmac : String → String → String) (secret : String)
    (envTtl : Option (Option ℚ)) (rand nextId : Nat) (now later : Int)
    (phoneNumber : String) (ip : Option String) (store : List PhoneLoginCode)
    (hrand : rand < 10 ^ 6)
    (hfresh : ∀ r ∈ store, r.phoneNumber ≠ phoneNumber) :
    (issuePhoneLoginCode hmac secret envTtl rand nextId now phoneNumber ip store).2
      = Except.ok (padCode rand, now + (getOtpTtlMinutes envTtl : Int) * 60 * 1000) ∧
    isSixDigits (padCode rand) = true ∧
    (later < now + (getOtpTtlMinutes envTtl : Int) * 60 * 1000 →
      (verifyPhoneLoginCode hmac secret later phoneNumber (padCode rand)
        (issuePhoneLoginCode hmac secret envTtl rand nextId now phoneNumber ip store).1).2
        = Except.ok true ∧
      ∃ r ∈ (verifyPhoneLoginCode hmac secret later phoneNumber (padCode rand)
          (issuePhoneLoginCode hmac secret envTtl rand nextId now phoneNumber ip store).1).1,
        r.id = nextId ∧ r.phoneNumber = phoneNumber ∧ r.consumedAt = some later) := by
  have hfresh1 : ∀ r ∈ purgeStore now store, r.phoneNumber ≠ phoneNumber :=
    fun r hr => hfresh r (mem_purgeStore hr)
  have hcount : recentCount now phoneNumber (purgeStore now store) = 0 := by
    simp only [recentCount]
    have hnil : (purgeStore now store).filter (fun r =>
        r.phoneNumber == phoneNumber &&
        decide (now - REQUEST_WINDOW_MINUTES * 60 * 1000 ≤ r.createdAt)) = [] := by
      rw [List.filter_eq_nil_iff]
      intro r hr
      simp [hfresh1 r hr]
    rw [hnil]
    rfl
  have hfind : findNewest (fun r => r.phoneNumber == phoneNumber)
      (purgeStore now store) = none := by
    apply findNewest_eq_none
    intro r hr
    simp [hfresh1 r hr]
  have hcool : cooldownRemaining now phoneNumber (purgeStore now store) = none := by
    simp only [cooldownRemaining, hfind]
  have hs := issue_success hmac secret envTtl rand nextId now phoneNumber ip store
    (by rw [hcount]; decide) hcool
  rw [hs]
  refine ⟨rfl, padCode_isSixDigits hrand, ?_⟩
  intro hlater
  have hact : isActiveFor phoneNumber later
      (newRecord hmac secret envTtl rand nextId now phoneNumber ip) = true := by
    simp [isActiveFor, newRecord]
    exact hlater
  have hmem : newRecord hmac secret envTtl rand nextId now phoneNumber ip
      ∈ purgeStore now store
        ++ [newRecord hmac secret envTtl rand nextId now phoneNumber ip] :=
    List.mem_append_right _ (List.mem_singleton_self _)
  have hmax : ∀ r ∈ purgeStore now store
        ++ [newRecord hmac secret envTtl rand nextId now phoneNumber ip],
      isActiveFor phoneNumber later r = true →
      r = newRecord hmac secret envTtl rand nextId now phoneNumber ip ∨
      r.createdAt
        < (newRecord hmac secret envTtl rand nextId now phoneNumber ip).createdAt := by
    intro r hr hactr
    rcases List.mem_append.mp hr with h1 | h1
    · exact absurd (isActiveFor_phone hactr) (hfresh1 r h1)
    · exact Or.inl (List.mem_singleton.mp h1)
  have hsel := findNewest_eq_of_max hmem hact hmax
  have hnorm := normalizeOtpCode_padCode hrand
  have hcap : (newRecord hmac secret envTtl rand nextId now phoneNumber ip).attempts
      < MAX_VERIFY_ATTEMPTS := (by decide : (0 : Nat) < MAX_VERIFY_ATTEMPTS)
  have hhash : secureEqualHex
      (newRecord hmac secret envTtl rand nextId now phoneNumber ip).codeHash
      (hashOtpCode hmac secret phoneNumber (padCode rand)) = true :=
    secureEqualHex_self _
  rw [verify_match hmac secret later phoneNumber (padCode rand) (padCode rand) _
    (newRecord hmac secret envTtl rand nextId now phoneNumber ip) hnorm hsel hcap hhash]
  refine ⟨rfl, ?_⟩
  refine ⟨consumeAndBump later
      (newRecord hmac secret envTtl rand nextId now phoneNumber ip).id
      (newRecord hmac secret envTtl rand nextId now phoneNumber ip),
    List.mem_map_of_mem _ hmem, ?_⟩
  have hfa : consumeAndBump later
      (newRecord hmac secret envTtl rand nextId now phoneNumber ip).id
      (newRecord hmac secret envTtl rand nextId now phoneNumber ip)
      = { newRecord hmac secret envTtl rand nextId now phoneNumber ip with
          consumedAt := some later,
          attempts := (newRecord hmac secret envTtl rand nextId now
            phoneNumber ip).attempts + 1 } := by
    unfold consumeAndBump; rw [if_pos (by simp)]
  rw [hfa]
  exact ⟨rfl, rfl, rfl⟩

/-- Witness for C1: issue for "+40711111111" from the empty store at time
zero, then verify one second later. -/
theorem c1_issue_verify_roundtrip_witness :
    (issuePhoneLoginCode hmacDemo "k" none 42 0 0 "+40711111111" none []).2
      = Except.ok (padCode 42, 0 + (getOtpTtlMinutes none : Int) * 60 * 1000) :=
  (c1_issue_verify_roundtrip hmacDemo "k" none 42 0 0 1000 "+40711111111" none []
    (by decide) (by simp)).1

/-- Claim C9: along every sequence of issue and verify operations starting
from the empty store, every record's attempt counter stays at most the
maximum (5): each verification increments by at most one and no increment
happens once the cap is reached (counters are naturals, so 0 is a lower
bound by construction). -/
theorem c9_attempts_invariant (hmac : String → String → String) (secret : String)
    (envTtl : Option (Option ℚ)) (ops : List Op) :
    ∀ r ∈ (runOps hmac secret envTtl ops).store, r.attempts ≤ MAX_VERIFY_ATTEMPTS :=
  fun r hr => ((runOps_good hmac secret envTtl ops).1 r hr).1

/-- Witness for C9: the record created by a one-issuance trace respects the
attempt cap. -/
theorem c9_attempts_invariant_witness :
    (newRecord hmacDemo "k" none 5 0 0 "+40755555555" none).attempts
      ≤ MAX_VERIFY_ATTEMPTS :=
  c9_attempts_invariant hmacDemo "k" none [Op.issueOp 5 0 "+40755555555" none]
    (newRecord hmacDemo "k" none 5 0 0 "+40755555555" none) (by decide)

end PhoneAuth
